import Mathlib

/-!
Verification development for the C binding layer of the NoveLSM key-value
store (files `include/novelsm/c.h`, `include/leveldb/c.h`, `db/c_test.c`).
The repository ships the C API contract and its conformance test; the engine
behind the API is an external black box, so engine-observable behavior is
modelled from the specification where marked.  Keys and values are byte
strings, modelled as `List Nat`.
-/

namespace NoveLSM

/-- Keys and values are immutable byte sequences (spec section 3). -/
abbrev ByteStr := List Nat

/-- Three-way comparison from `CmpCompare` in `db/c_test.c`: `memcmp` over the
common prefix, ties broken by length (shorter is smaller).  This coincides
with unsigned lexicographic byte order, the default comparator. -/
def cmpCompare : ByteStr → ByteStr → Int
  | [], [] => 0
  | [], _ :: _ => -1
  | _ :: _, [] => 1
  | a :: as, b :: bs =>
      if a < b then -1
      else if b < a then 1
      else cmpCompare as bs

/-- Boolean strict order on keys induced by `cmpCompare`. -/
def keyLtB (a b : ByteStr) : Bool := cmpCompare a b < 0

/-- Byte string "foo". -/
def kFoo : ByteStr := [102, 111, 111]
/-- Byte string "bar". -/
def kBar : ByteStr := [98, 97, 114]
/-- Byte string "box". -/
def kBox : ByteStr := [98, 111, 120]
/-- Byte string "b". -/
def kB : ByteStr := [98]
/-- Byte string "c". -/
def kC : ByteStr := [99]
/-- Byte string "hello". -/
def kHello : ByteStr := [104, 101, 108, 108, 111]

/-- One record of a write batch: `Put(key, value)` or `Delete(key)`
(spec section 3, WriteBatch). -/
inductive BatchRecord : Type
  | put (key value : ByteStr)
  | del (key : ByteStr)
deriving DecidableEq

/-- Modelled from the spec: a write batch is an ordered sequence of records,
preserved exactly as appended (spec section 3); the batch implementation
itself is not under `src/`. -/
abbrev WriteBatch := List BatchRecord

/-- Modelled from the spec: `novelsm_writebatch_create` yields an empty batch. -/
def novelsm_writebatch_create : WriteBatch := []

/-- Modelled from the spec: `novelsm_writebatch_put` appends a Put record. -/
def novelsm_writebatch_put (b : WriteBatch) (k v : ByteStr) : WriteBatch :=
  b ++ [BatchRecord.put k v]

/-- Modelled from the spec: `novelsm_writebatch_delete` appends a Delete record. -/
def novelsm_writebatch_delete (b : WriteBatch) (k : ByteStr) : WriteBatch :=
  b ++ [BatchRecord.del k]

/-- Modelled from the spec: `novelsm_writebatch_clear` resets the batch to
empty (spec section 4.3). -/
def novelsm_writebatch_clear (_b : WriteBatch) : WriteBatch := []

/-- Modelled from the spec: `novelsm_writebatch_iterate` replays records in
append order, invoking the put callback per Put record and the delete
callback per Delete record, threading the caller state (spec section 4.3). -/
def novelsm_writebatch_iterate {σ : Type} (b : WriteBatch) (s : σ)
    (onPut : σ → ByteStr → ByteStr → σ) (onDel : σ → ByteStr → σ) : σ :=
  b.foldl (fun st r =>
    match r with
    | BatchRecord.put k v => onPut st k v
    | BatchRecord.del k => onDel st k) s

/-- Visible event of a batch replay, used to record callback invocations. -/
inductive VisitEvent : Type
  | putEv (key value : ByteStr)
  | delEv (key : ByteStr)
deriving DecidableEq

/-- Event trace of a batch replay: iterate with trace-collecting callbacks. -/
def iterateTrace (b : WriteBatch) : List VisitEvent :=
  novelsm_writebatch_iterate b []
    (fun t k v => t ++ [VisitEvent.putEv k v])
    (fun t k => t ++ [VisitEvent.delEv k])

/-- Modelled from the spec: the visible key space of the store, a map from
keys to optional values; the engine is external to this repository. -/
abbrev DBMap := ByteStr → Option ByteStr

/-- Modelled from the spec: applying one batch record to the visible state. -/
def applyRecord (db : DBMap) : BatchRecord → DBMap
  | BatchRecord.put k v => fun q => if q = k then some v else db q
  | BatchRecord.del k => fun q => if q = k then none else db q

/-- Modelled from the spec: `novelsm_write` applies the batch records in
append order as one atomic unit (spec section 4.3 and 4.4). -/
def novelsm_write (db : DBMap) (b : WriteBatch) : DBMap :=
  b.foldl applyRecord db

/-- Modelled from the spec: `novelsm_put` is the single-record convenience
equivalent to a one-record batch (spec section 4.4). -/
def novelsm_put (db : DBMap) (k v : ByteStr) : DBMap :=
  novelsm_write db [BatchRecord.put k v]

/-- Modelled from the spec: `novelsm_delete` is the single-record convenience
equivalent to a one-record batch (spec section 4.4). -/
def novelsm_delete (db : DBMap) (k : ByteStr) : DBMap :=
  novelsm_write db [BatchRecord.del k]

/-- Modelled from the spec: `novelsm_get` reads the visible state; not-found
is the `none` outcome, distinct from any error (spec section 4.4). -/
def novelsm_get (db : DBMap) (k : ByteStr) : Option ByteStr := db k

/-- Effect of a single batch record on key `k`: `some (some v)` for a Put of
`k`, `some none` for a Delete of `k`, `none` when the record mentions
another key. -/
def recordEffect (k : ByteStr) : BatchRecord → Option (Option ByteStr)
  | BatchRecord.put k' v => if k = k' then some (some v) else none
  | BatchRecord.del k' => if k = k' then some none else none

/-- Effect on key `k` of the last record for `k` in the batch, if any. -/
def lastEffect : WriteBatch → ByteStr → Option (Option ByteStr)
  | [], _ => none
  | r :: b, k =>
      match lastEffect b k with
      | some e => some e
      | none => recordEffect k r

theorem novelsm_write_record (db : DBMap) (r : BatchRecord) (b : WriteBatch) :
    novelsm_write db (r :: b) = novelsm_write (applyRecord db r) b := by
  simp [novelsm_write, List.foldl_cons]

theorem applyRecord_eq_recordEffect (db : DBMap) (r : BatchRecord) (k : ByteStr) :
    applyRecord db r k = (recordEffect k r).getD (db k) := by
  cases r with
  | put k' v => by_cases hk : k = k' <;> simp [applyRecord, recordEffect, hk]
  | del k' => by_cases hk : k = k' <;> simp [applyRecord, recordEffect, hk]

/-- Core batch-apply characterization: the visible value of `k` after applying
a batch is the effect of the last record for `k`, defaulting to the prior
value when no record mentions `k`. -/
theorem novelsm_write_eq_lastEffect (b : WriteBatch) (db : DBMap) (k : ByteStr) :
    novelsm_write db b k = (lastEffect b k).getD (db k) := by
  induction b generalizing db with
  | nil => rfl
  | cons r b ih =>
      rw [novelsm_write_record, ih, applyRecord_eq_recordEffect]
      cases h : lastEffect b k with
      | some e => simp [lastEffect, h]
      | none =>
          cases he : recordEffect k r with
          | some e' => simp [lastEffect, h, he]
          | none => simp [lastEffect, h, he]

/-- Empty visible key space. -/
def emptyDB : DBMap := fun _ => none

/-- Outcome of a fallible C-API call: success with a result, or failure
carrying a null-terminated human-readable message (header comment (3),
`include/novelsm/c.h` lines 24-33). -/
inductive OpResult (α : Type) : Type
  | ok (a : α)
  | err (msg : String)

/-- Success test for an `OpResult`. -/
def OpResult.isOk {α : Type} : OpResult α → Bool
  | OpResult.ok _ => true
  | OpResult.err _ => false

/-- Error-slot state of the `char** errptr` protocol: the current content of
the slot plus the multiset of messages released (freed) so far. -/
structure ErrChannel where
  slot : Option String
  released : List String
deriving DecidableEq

/-- Modelled from the spec: delivering an operation outcome through the
errptr slot (header comment (3)): on success the slot is left unchanged; on
failure the old value of the slot is freed and the slot is set to the newly
allocated message, and no result is produced.  The binding code that
implements this (`SaveError` in the C binding) is not under `src/`. -/
def applyOutcome {α : Type} (chan : ErrChannel) : OpResult α → ErrChannel × Option α
  | OpResult.ok a => (chan, some a)
  | OpResult.err m =>
      ({ slot := some m, released := chan.released ++ chan.slot.toList }, none)

/-- Open-time options relevant to `novelsm_open` failure behavior. -/
structure OpenOptions where
  create_if_missing : Bool
  error_if_exists : Bool
deriving DecidableEq

/-- Message for opening an absent store without `create_if_missing`. -/
def msgMissing : String := "Invalid argument: does not exist (create_if_missing is false)"

/-- Message for opening an existing store with `error_if_exists`. -/
def msgExists : String := "Invalid argument: exists (error_if_exists is true)"

/-- Modelled from the spec: `novelsm_open` over the abstract presence of the
named storage (spec section 4.4): fails when the storage is absent and
`create_if_missing` is unset; fails when it exists and `error_if_exists` is
set; otherwise succeeds (creating the storage when absent). -/
def novelsm_open (o : OpenOptions) (present : Bool) : OpResult Unit :=
  if present then
    if o.error_if_exists then OpResult.err msgExists
    else OpResult.ok ()
  else
    if o.create_if_missing then OpResult.ok ()
    else OpResult.err msgMissing

/-- Modelled from the spec: a snapshot is a fixed point-in-time view of the
key space (spec section 3). -/
abbrev Snapshot := DBMap

/-- Read-time options: an optional pinned snapshot (spec section 4.2). -/
structure ReadOptions where
  snapshot : Option Snapshot

/-- Modelled from the spec: `novelsm_create_snapshot` captures the current
visible state (spec section 4.4). -/
def novelsm_create_snapshot (db : DBMap) : Snapshot := db

/-- Modelled from the spec: the view a read observes: the pinned snapshot if
one is set, else the latest committed state (spec section 4.4). -/
def readView (db : DBMap) (ro : ReadOptions) (k : ByteStr) : Option ByteStr :=
  match ro.snapshot with
  | some s => s k
  | none => db k

/-- Modelled from the spec: `novelsm_get` with its errptr slot: in-memory
reads of the abstract map do not fail; a missing key yields the distinct
not-found outcome `none` with the slot left untouched, never an error
(spec section 4.4 and `CheckGet` in `db/c_test.c` lines 64-76). -/
def novelsm_get_c (db : DBMap) (ro : ReadOptions) (k : ByteStr)
    (chan : ErrChannel) : Option ByteStr × ErrChannel :=
  (readView db ro k, chan)

/-- Byte string "fake", the filter blob built by `FilterCreate`. -/
def kFake : ByteStr := [102, 97, 107, 101]

/-- Filter constructor from `FilterCreate` in `db/c_test.c` lines 138-147:
ignores the keys and returns the 4-byte blob "fake". -/
def FilterCreate (_keys : List ByteStr) : ByteStr := kFake

/-- Membership test from `FilterKeyMatch` in `db/c_test.c` lines 148-155:
aborts (`none`) unless the filter blob is the 4-byte "fake", and otherwise
returns the current value of `fake_filter_result`. -/
def FilterKeyMatch (fake_filter_result : Bool) (_key : ByteStr)
    (filter : ByteStr) : Option Bool :=
  if filter.length = 4 ∧ filter = kFake then some fake_filter_result else none

/-- Modelled from the spec: a table read consults the policy's membership
test first and trusts a `false` answer, skipping the backing read entirely
(spec section 4.7); `true` is confirmed against the authoritative record. -/
def getWithFilter (mayMatch : ByteStr → Bool) (db : DBMap) (k : ByteStr) :
    Option ByteStr :=
  if mayMatch k then db k else none

/-- One key-value entry of the iterated key space. -/
abbrev Entry := ByteStr × ByteStr

/-- Strictly-increasing enumeration check: every entry's key is below every
later entry's key under `keyLtB` (the active ordering). -/
def sortedB : List Entry → Bool
  | [] => true
  | e :: es => es.all (fun f => keyLtB e.1 f.1) && sortedB es

/-- Modelled from the spec: an iterator is a cursor over the snapshot-fixed,
order-sorted entry list of the key space; the cursor is either Invalid
(`none`) or Valid at an in-range position (spec sections 3 and 4.5).  The
engine iterator is not under `src/`. -/
structure IterState where
  entries : List Entry
  pos : Option Nat
deriving DecidableEq

/-- Modelled from the spec: `novelsm_create_iterator` always succeeds and
starts Invalid (spec section 4.4). -/
def novelsm_create_iterator (es : List Entry) : IterState :=
  { entries := es, pos := none }

/-- Validity of the cursor (`novelsm_iter_valid`). -/
def novelsm_iter_valid (it : IterState) : Bool := it.pos.isSome

/-- Modelled from the spec: `novelsm_iter_seek_to_first` positions at the
lowest key, Invalid when the key space is empty (spec section 4.5). -/
def novelsm_iter_seek_to_first (it : IterState) : IterState :=
  { it with pos := if it.entries.isEmpty then none else some 0 }

/-- Modelled from the spec: `novelsm_iter_seek_to_last` positions at the
highest key, Invalid when the key space is empty (spec section 4.5). -/
def novelsm_iter_seek_to_last (it : IterState) : IterState :=
  { it with pos := if it.entries.isEmpty then none else some (it.entries.length - 1) }

/-- Position of the first entry whose key is not below the target. -/
def seekPos (t : ByteStr) : List Entry → Option Nat
  | [] => none
  | e :: es => if keyLtB e.1 t then (seekPos t es).map (· + 1) else some 0

/-- Modelled from the spec: `novelsm_iter_seek` positions at the first key
greater than or equal to the target, Invalid when there is none
(spec section 4.5). -/
def novelsm_iter_seek (it : IterState) (t : ByteStr) : IterState :=
  { it with pos := seekPos t it.entries }

/-- Modelled from the spec: `novelsm_iter_next` moves a Valid cursor to the
adjacent higher entry, Invalid past the upper end; moving while Invalid is a
precondition violation and is modelled as a no-op (spec section 4.5). -/
def novelsm_iter_next (it : IterState) : IterState :=
  match it.pos with
  | none => it
  | some i =>
      { it with pos := if i + 1 < it.entries.length then some (i + 1) else none }

/-- Modelled from the spec: `novelsm_iter_prev` moves a Valid cursor to the
adjacent lower entry, Invalid past the lower end (spec section 4.5). -/
def novelsm_iter_prev (it : IterState) : IterState :=
  match it.pos with
  | none => it
  | some i =>
      { it with pos := if i = 0 then none else some (i - 1) }

/-- Current key (`novelsm_iter_key`), defined only in the Valid state. -/
def novelsm_iter_key (it : IterState) : Option ByteStr :=
  it.pos.bind fun i => (it.entries[i]?).map Prod.fst

/-- Current value (`novelsm_iter_value`), defined only in the Valid state. -/
def novelsm_iter_value (it : IterState) : Option ByteStr :=
  it.pos.bind fun i => (it.entries[i]?).map Prod.snd

/-- Callback state check from `CheckPut` in `db/c_test.c` lines 89-105:
`none` models a `CheckCondition`/`CheckEqual` abort; otherwise the position
counter advances. -/
def CheckPut (st : Option Nat) (k v : ByteStr) : Option Nat :=
  match st with
  | none => none
  | some s =>
      if s < 2 then
        match s with
        | 0 => if k = kBar ∧ v = kB then some 1 else none
        | 1 => if k = kBox ∧ v = kC then some 2 else none
        | _ => none
      else none

/-- Callback state check from `CheckDel` in `db/c_test.c` lines 108-113. -/
def CheckDel (st : Option Nat) (k : ByteStr) : Option Nat :=
  match st with
  | none => none
  | some s => if s = 2 ∧ k = kBar then some 3 else none

/-- Byte string "a". -/
def kA : ByteStr := [97]

/-- The batch built in the writebatch phase of `main` (`db/c_test.c` lines
237-242): Put(foo,a); Clear; Put(bar,b); Put(box,c); Delete(bar). -/
def testBatch : WriteBatch :=
  novelsm_writebatch_delete
    (novelsm_writebatch_put
      (novelsm_writebatch_put
        (novelsm_writebatch_clear
          (novelsm_writebatch_put novelsm_writebatch_create kFoo kA))
        kBar kB)
      kBox kC)
    kBar

/-- Database handle paired with a caller-owned write batch, the state the
writebatch phase of the test manipulates. -/
structure DBAndBatch where
  db : DBMap
  wb : WriteBatch

/-- Modelled from the spec: `novelsm_write` applies the caller's batch to the
database; the batch is read, not consumed, and stays owned by the caller
(spec section 3 and the test's re-iteration after Write, `db/c_test.c`
lines 243-250). -/
def novelsm_write_step (s : DBAndBatch) : DBAndBatch :=
  { s with db := novelsm_write s.db s.wb }

/-- Initial value of the test's global `phase` (`db/c_test.c` line 14): the
empty string literal, not the null pointer (`none`). -/
def phaseInit : Option String := some ("")

/-- Effect of `StartPhase` (`db/c_test.c` lines 17-20) on the global
`phase`: it stores the literal passed by the caller. -/
def StartPhase (_p : Option String) (name : String) : Option String := some name

/-- Value of `phase` after a sequence of `StartPhase` calls. -/
def phaseAfter (names : List String) : Option String :=
  names.foldl StartPhase phaseInit

/-- The `StartPhase` arguments of `main` up to and including the filter
phase (`db/c_test.c`). -/
def mainPhaseNames : List String :=
  ["create_objects", "destroy", "open_error", "novelsm_free", "open", "put",
   "compactall", "compactrange", "writebatch", "iter", "approximate_sizes",
   "property", "snapshot", "repair", "filter"]

/-- Observable trace of one iteration of the filter-phase loop body:
whether the `if (phase == 0)` branch was taken, the results of the custom
membership-test invocations in order (with `none` for an aborted check), and
the final value of `fake_filter_result`. -/
structure FilterPhaseTrace where
  branchTaken : Bool
  matchCalls : List (Option Bool)
  finalFFR : Bool
deriving DecidableEq

/-- Run-0 body of the filter phase of `main` (`db/c_test.c` lines 339-377):
`fake_filter_result` is set to 1, `CheckGet` on foo and on bar each invoke
`FilterKeyMatch` on the blob built by `FilterCreate`; the block guarded by
`if (phase == 0)` sets `fake_filter_result` to 0 for two further gets and
back to 1 for two more. -/
def filterRunBody (phase : Option String) (_ffr0 : Bool) : FilterPhaseTrace :=
  let blob := FilterCreate [kFoo, kBar]
  let calls1 := [FilterKeyMatch true kFoo blob, FilterKeyMatch true kBar blob]
  if phase = none then
    { branchTaken := true,
      matchCalls := calls1 ++
        [FilterKeyMatch false kFoo blob, FilterKeyMatch false kBar blob] ++
        [FilterKeyMatch true kFoo blob, FilterKeyMatch true kBar blob],
      finalFFR := true }
  else
    { branchTaken := false, matchCalls := calls1, finalFFR := true }

/-- Replay event of a single batch record. -/
def recEvent : BatchRecord → VisitEvent
  | BatchRecord.put k v => VisitEvent.putEv k v
  | BatchRecord.del k => VisitEvent.delEv k

theorem writebatch_iterate_cons {σ : Type} (r : BatchRecord) (b : WriteBatch)
    (s : σ) (onPut : σ → ByteStr → ByteStr → σ) (onDel : σ → ByteStr → σ) :
    novelsm_writebatch_iterate (r :: b) s onPut onDel =
      novelsm_writebatch_iterate b
        (match r with
         | BatchRecord.put k v => onPut s k v
         | BatchRecord.del k => onDel s k) onPut onDel := rfl

theorem iterateTrace_acc (b : WriteBatch) (acc : List VisitEvent) :
    novelsm_writebatch_iterate b acc
      (fun t k v => t ++ [VisitEvent.putEv k v])
      (fun t k => t ++ [VisitEvent.delEv k]) = acc ++ b.map recEvent := by
  induction b generalizing acc with
  | nil => simp [novelsm_writebatch_iterate]
  | cons r b ih =>
      rw [writebatch_iterate_cons]
      cases r with
      | put k v => rw [ih]; simp [recEvent]
      | del k => rw [ih]; simp [recEvent]

/-- The replay trace of a batch is exactly its record sequence, in append
order. -/
theorem iterateTrace_eq_map (b : WriteBatch) :
    iterateTrace b = b.map recEvent := by
  simpa using iterateTrace_acc b []

theorem cmpCompare_self (a : ByteStr) : cmpCompare a a = 0 := by
  induction a with
  | nil => rfl
  | cons x xs ih => simp [cmpCompare, ih]

theorem cmpCompare_antisymm (a b : ByteStr) :
    cmpCompare a b = -(cmpCompare b a) := by
  induction a generalizing b with
  | nil => cases b <;> rfl
  | cons x xs ih =>
      cases b with
      | nil => rfl
      | cons y ys =>
          rcases Nat.lt_trichotomy x y with h | h | h
          · simp [cmpCompare, h, Nat.lt_asymm h]
          · subst h
            simp [cmpCompare, Nat.lt_irrefl, ih ys]
          · simp [cmpCompare, h, Nat.lt_asymm h]

theorem keyLtB_irrefl (a : ByteStr) : keyLtB a a = false := by
  simp [keyLtB, cmpCompare_self]

theorem keyLtB_asymm {a b : ByteStr} (h : keyLtB a b = true) :
    keyLtB b a = false := by
  simp only [keyLtB, decide_eq_true_eq] at h
  simp only [keyLtB, decide_eq_false_iff_not, not_lt]
  rw [cmpCompare_antisymm b a]
  omega

theorem sortedB_cons {e : Entry} {es : List Entry}
    (h : sortedB (e :: es) = true) :
    (∀ f ∈ es, keyLtB e.1 f.1 = true) ∧ sortedB es = true := by
  simp only [sortedB, Bool.and_eq_true, List.all_eq_true] at h
  exact ⟨h.1, h.2⟩

/-- In a strictly sorted entry list, keys are monotone in the index. -/
theorem sortedB_index {es : List Entry} (h : sortedB es = true) :
    ∀ i j (hi : i < es.length) (hj : j < es.length), i < j →
      keyLtB (es.get ⟨i, hi⟩).1 (es.get ⟨j, hj⟩).1 = true := by
  induction es with
  | nil => intro i j hi _ _; exact absurd hi (Nat.not_lt_zero i)
  | cons e es ih =>
      intro i j hi hj hij
      obtain ⟨hall, hs⟩ := sortedB_cons h
      cases i with
      | zero =>
          cases j with
          | zero => exact absurd hij (Nat.lt_irrefl 0)
          | succ j' =>
              have hj' : j' < es.length := Nat.lt_of_succ_lt_succ hj
              exact hall _ (es.get_mem j' hj')
      | succ i' =>
          cases j with
          | zero => exact absurd hij (by omega)
          | succ j' =>
              exact ih hs i' j' (Nat.lt_of_succ_lt_succ hi)
                (Nat.lt_of_succ_lt_succ hj) (Nat.lt_of_succ_lt_succ hij)

/-- The head of a sorted entry list has the lowest key. -/
theorem sortedB_head_min {es : List Entry} (h : sortedB es = true) :
    ∀ e ∈ es, ∀ (h0 : 0 < es.length),
      keyLtB e.1 ((es.get ⟨0, h0⟩).1) = false := by
  cases es with
  | nil => intro e he; exact absurd he (List.not_mem_nil e)
  | cons a es =>
      intro e he _
      obtain ⟨hall, _⟩ := sortedB_cons h
      rcases List.mem_cons.mp he with rfl | hmem
      · exact keyLtB_irrefl e.1
      · exact keyLtB_asymm (hall e hmem)

/-- The last element of a sorted entry list has the highest key. -/
theorem sortedB_last_max {es : List Entry} (h : sortedB es = true) :
    ∀ e ∈ es, ∀ (hl : es.length - 1 < es.length),
      keyLtB ((es.get ⟨es.length - 1, hl⟩).1) e.1 = false := by
  intro e he hl
  obtain ⟨i, rfl⟩ := List.mem_iff_get.mp he
  rcases Nat.lt_or_ge i.1 (es.length - 1) with hlt | hge
  · exact keyLtB_asymm (sortedB_index h i.1 (es.length - 1) i.2 hl hlt)
  · have : i.1 = es.length - 1 := by omega
    have : es.get i = es.get ⟨es.length - 1, hl⟩ := by
      congr 1
      exact Fin.ext this
    rw [this]
    exact keyLtB_irrefl _

theorem seekPos_some_lt {t : ByteStr} {es : List Entry} {i : Nat}
    (h : seekPos t es = some i) : i < es.length := by
  induction es generalizing i with
  | nil => exact absurd h (by simp [seekPos])
  | cons e es ih =>
      by_cases hlt : keyLtB e.1 t = true
      · simp only [seekPos, hlt, if_true] at h
        cases hs : seekPos t es with
        | none => rw [hs] at h; exact absurd h (by simp)
        | some j =>
            rw [hs] at h
            have hj := ih hs
            have hji : j + 1 = i := by simpa using h
            simp only [List.length_cons]
            omega
      · simp only [seekPos, hlt, if_false] at h
        simp [← Option.some.inj h]

/-- Seek lands on the first entry (in list order) whose key is at or above
the target. -/
theorem seekPos_bind_fst (t : ByteStr) (es : List Entry) :
    (seekPos t es).bind (fun i => (es[i]?).map Prod.fst) =
      (es.find? fun e => !keyLtB e.1 t).map Prod.fst := by
  induction es with
  | nil => rfl
  | cons e es ih =>
      by_cases hlt : keyLtB e.1 t = true
      · simp only [seekPos, hlt, if_true, List.find?_cons, Bool.not_eq_true']
        cases hs : seekPos t es with
        | none => simp [hs] at ih ⊢; simpa [hlt] using ih
        | some j =>
            simp [hs, hlt] at ih ⊢
            simpa using ih
      · have hlt' : keyLtB e.1 t = false := by
          cases hb : keyLtB e.1 t
          · rfl
          · exact absurd hb hlt
        simp [seekPos, hlt', List.find?_cons]

theorem seekPos_isSome_eq (t : ByteStr) (es : List Entry) :
    (seekPos t es).isSome = (es.find? fun e => !keyLtB e.1 t).isSome := by
  induction es with
  | nil => rfl
  | cons e es ih =>
      by_cases hlt : keyLtB e.1 t = true
      · simp [seekPos, hlt, List.find?_cons, ih]
      · have hlt' : keyLtB e.1 t = false := by
          cases hb : keyLtB e.1 t
          · rfl
          · exact absurd hb hlt
        simp [seekPos, hlt', List.find?_cons]

/-- The database state after the put phase of the test: foo maps to hello. -/
def dbAfterPut : DBMap := novelsm_put emptyDB kFoo kHello

/-- C1: for every fallible operation entered with an empty error slot, a
successful outcome leaves the slot untouched (still empty), a failing
outcome releases any previous slot content and stores the newly produced
message, and no operation both succeeds and writes an error into the slot. -/
theorem spec_C1 (α : Type) (chan : ErrChannel) (r : OpResult α)
    (h : chan.slot = none) :
    (∀ a : α, r = OpResult.ok a →
        applyOutcome chan r = (chan, some a)
        ∧ (applyOutcome chan r).1.slot = none)
    ∧ (∀ m : String, r = OpResult.err m →
        (applyOutcome chan r).1.slot = some m
        ∧ (applyOutcome chan r).2 = none)
    ∧ ((applyOutcome chan r).2.isSome = true → (applyOutcome chan r).1.slot = none)
    ∧ (∀ (c : ErrChannel) (m : String),
        (applyOutcome c (OpResult.err m : OpResult α)).1.released
          = c.released ++ c.slot.toList) := by
  refine ⟨?_, ?_, ?_, ?_⟩
  · rintro a rfl
    exact ⟨rfl, h⟩
  · rintro m rfl
    exact ⟨rfl, rfl⟩
  · intro hs
    cases r with
    | ok a => exact h
    | err m => simp [applyOutcome] at hs
  · intro c m
    rfl

/-- Witness for C1 at a concrete failing operation with an empty slot. -/
theorem spec_C1_w :
    ({ slot := none, released := [] } : ErrChannel).slot = none
    ∧ ((∀ a : Unit, (OpResult.err msgMissing : OpResult Unit) = OpResult.ok a →
          applyOutcome { slot := none, released := [] } (OpResult.err msgMissing : OpResult Unit)
            = ({ slot := none, released := [] }, some a)
          ∧ (applyOutcome { slot := none, released := [] } (OpResult.err msgMissing : OpResult Unit)).1.slot = none)
      ∧ (∀ m : String, (OpResult.err msgMissing : OpResult Unit) = OpResult.err m →
          (applyOutcome { slot := none, released := [] } (OpResult.err msgMissing : OpResult Unit)).1.slot = some m
          ∧ (applyOutcome { slot := none, released := [] } (OpResult.err msgMissing : OpResult Unit)).2 = none)
      ∧ ((applyOutcome { slot := none, released := [] } (OpResult.err msgMissing : OpResult Unit)).2.isSome = true →
          (applyOutcome { slot := none, released := [] } (OpResult.err msgMissing : OpResult Unit)).1.slot = none)
      ∧ (∀ (c : ErrChannel) (m : String),
          (applyOutcome c (OpResult.err m : OpResult Unit)).1.released
            = c.released ++ c.slot.toList)) :=
  ⟨rfl, spec_C1 Unit { slot := none, released := [] } (OpResult.err msgMissing) rfl⟩

/-- C2: applying a write batch makes each key's visible value the effect of
the last record for that key in append order, keys without a record keep
their prior value, and on the test database (foo maps to hello) the batch
Put(bar,b); Put(box,c); Delete(bar) yields bar not-found, box mapped to c,
and foo still mapped to hello. -/
theorem spec_C2 (b : WriteBatch) (db : DBMap) (k knot : ByteStr)
    (h : lastEffect b knot = none) :
    novelsm_write db b k = (lastEffect b k).getD (db k)
    ∧ novelsm_write db b knot = db knot
    ∧ novelsm_get (novelsm_write dbAfterPut testBatch) kBar = none
    ∧ novelsm_get (novelsm_write dbAfterPut testBatch) kBox = some kC
    ∧ novelsm_get (novelsm_write dbAfterPut testBatch) kFoo = some kHello := by
  refine ⟨novelsm_write_eq_lastEffect b db k, ?_, by decide, by decide, by decide⟩
  rw [novelsm_write_eq_lastEffect, h]
  rfl

/-- Witness for C2: the test batch has no record for foo. -/
theorem spec_C2_w :
    lastEffect testBatch kFoo = none
    ∧ (novelsm_write dbAfterPut testBatch kBar
        = (lastEffect testBatch kBar).getD (dbAfterPut kBar)
      ∧ novelsm_write dbAfterPut testBatch kFoo = dbAfterPut kFoo
      ∧ novelsm_get (novelsm_write dbAfterPut testBatch) kBar = none
      ∧ novelsm_get (novelsm_write dbAfterPut testBatch) kBox = some kC
      ∧ novelsm_get (novelsm_write dbAfterPut testBatch) kFoo = some kHello) :=
  ⟨by decide, spec_C2 testBatch dbAfterPut kBar kFoo (by decide)⟩

/-- C3: replaying the batch built as Put(foo,a); Clear; Put(bar,b);
Put(box,c); Delete(bar) invokes exactly put(bar,b), put(box,c), deleted(bar)
in that order (the test's callback state machine reaches 3), and in general
Put/Delete append one replay event at the end while Clear resets the replay
to empty. -/
theorem spec_C3 :
    iterateTrace testBatch =
      [VisitEvent.putEv kBar kB, VisitEvent.putEv kBox kC, VisitEvent.delEv kBar]
    ∧ novelsm_writebatch_iterate testBatch (some 0) CheckPut CheckDel = some 3
    ∧ (∀ (b : WriteBatch) (k v : ByteStr),
        iterateTrace (novelsm_writebatch_put b k v)
          = iterateTrace b ++ [VisitEvent.putEv k v]
        ∧ iterateTrace (novelsm_writebatch_delete b k)
          = iterateTrace b ++ [VisitEvent.delEv k]
        ∧ iterateTrace (novelsm_writebatch_clear b) = []) := by
  refine ⟨by decide, by decide, ?_⟩
  intro b k v
  refine ⟨?_, ?_, ?_⟩ <;>
    simp [iterateTrace_eq_map, novelsm_writebatch_put, novelsm_writebatch_delete,
      novelsm_writebatch_clear, iterateTrace, novelsm_writebatch_iterate, recEvent]

/-- C5: a key present when a snapshot is created and deleted afterwards is
still returned by a read pinned to the snapshot, while an unpinned read
reports not-found. -/
theorem spec_C5 (db : DBMap) (k v : ByteStr) (h : db k = some v) :
    readView (novelsm_delete db k)
      { snapshot := some (novelsm_create_snapshot db) } k = some v
    ∧ readView (novelsm_delete db k) { snapshot := none } k = none := by
  constructor
  · simpa [readView, novelsm_create_snapshot] using h
  · simp [readView, novelsm_delete, novelsm_write, applyRecord]

/-- Witness for C5 on the test database where foo maps to hello. -/
theorem spec_C5_w :
    dbAfterPut kFoo = some kHello
    ∧ (readView (novelsm_delete dbAfterPut kFoo)
        { snapshot := some (novelsm_create_snapshot dbAfterPut) } kFoo = some kHello
      ∧ readView (novelsm_delete dbAfterPut kFoo) { snapshot := none } kFoo = none) :=
  ⟨by decide, spec_C5 dbAfterPut kFoo kHello (by decide)⟩

/-- C6: for all keys and values (including empty byte strings) Put then Get
returns exactly the stored value and Delete then Get reports not-found, and
the not-found outcome is the distinct non-error result `none` delivered with
the error slot left untouched. -/
theorem spec_C6 (db : DBMap) (k v : ByteStr) (chan : ErrChannel) :
    novelsm_get (novelsm_put db k v) k = some v
    ∧ novelsm_get (novelsm_delete db k) k = none
    ∧ novelsm_get_c (novelsm_put db k v) { snapshot := none } k chan
        = (some v, chan)
    ∧ novelsm_get_c (novelsm_delete db k) { snapshot := none } k chan
        = (none, chan) := by
  refine ⟨?_, ?_, ?_, ?_⟩ <;>
    simp [novelsm_get, novelsm_get_c, readView, novelsm_put, novelsm_delete,
      novelsm_write, applyRecord]

/-- C7: Open fails on an absent store without `create_if_missing` (and
populates the error slot while producing no database), fails on an existing
store with `error_if_exists`, and succeeds on an absent store with
`create_if_missing` set even when `error_if_exists` is also set. -/
theorem spec_C7 (b c : Bool) :
    (novelsm_open { create_if_missing := false, error_if_exists := b } false).isOk = false
    ∧ (novelsm_open { create_if_missing := c, error_if_exists := true } true).isOk = false
    ∧ novelsm_open { create_if_missing := true, error_if_exists := true } false
        = OpResult.ok ()
    ∧ ((applyOutcome { slot := none, released := [] }
          (novelsm_open { create_if_missing := false, error_if_exists := b } false)).1.slot).isSome
        = true
    ∧ (applyOutcome { slot := none, released := [] }
          (novelsm_open { create_if_missing := false, error_if_exists := b } false)).2
        = none := by
  cases b <;> cases c <;>
    refine ⟨rfl, rfl, rfl, rfl, rfl⟩

/-- C8: under the custom policy of the test (whose blob is "fake"), a
membership test forced to answer false makes Get report not-found even for
a key whose value is actually stored, because the engine trusts the false
answer and skips the backing read; with the membership test answering true,
Get returns the stored value. -/
theorem spec_C8 (db : DBMap) (k v : ByteStr) (keys : List ByteStr)
    (h : db k = some v) :
    getWithFilter (fun q => (FilterKeyMatch false q (FilterCreate keys)).getD false) db k
      = none
    ∧ getWithFilter (fun q => (FilterKeyMatch true q (FilterCreate keys)).getD false) db k
      = some v
    ∧ (∀ q : ByteStr, FilterKeyMatch false q (FilterCreate keys) = some false)
    ∧ (∀ q : ByteStr, FilterKeyMatch true q (FilterCreate keys) = some true) := by
  refine ⟨?_, ?_, ?_, ?_⟩ <;>
    simp [getWithFilter, FilterKeyMatch, FilterCreate, kFake, h]

/-- Witness for C8 on the test database where foo maps to hello. -/
theorem spec_C8_w :
    dbAfterPut kFoo = some kHello
    ∧ (getWithFilter
        (fun q => (FilterKeyMatch false q (FilterCreate [kFoo, kBar])).getD false)
        dbAfterPut kFoo = none
      ∧ getWithFilter
          (fun q => (FilterKeyMatch true q (FilterCreate [kFoo, kBar])).getD false)
          dbAfterPut kFoo = some kHello
      ∧ (∀ q : ByteStr, FilterKeyMatch false q (FilterCreate [kFoo, kBar]) = some false)
      ∧ (∀ q : ByteStr, FilterKeyMatch true q (FilterCreate [kFoo, kBar]) = some true)) :=
  ⟨by decide, spec_C8 dbAfterPut kFoo kHello [kFoo, kBar] (by decide)⟩

/-- C9: Write reads the caller's batch without consuming it: the batch
component of the state is unchanged, its replay trace after a Write equals
the trace before, and on the concrete test state the post-Write replay still
drives the callback state machine to 3 exactly as before the Write. -/
theorem spec_C9 (s : DBAndBatch) :
    (novelsm_write_step s).wb = s.wb
    ∧ iterateTrace (novelsm_write_step s).wb = iterateTrace s.wb
    ∧ (∀ st : Option Nat,
        novelsm_writebatch_iterate (novelsm_write_step s).wb st CheckPut CheckDel
          = novelsm_writebatch_iterate s.wb st CheckPut CheckDel)
    ∧ novelsm_writebatch_iterate
        (novelsm_write_step { db := dbAfterPut, wb := testBatch }).wb
        (some 0) CheckPut CheckDel = some 3
    ∧ iterateTrace (novelsm_write_step { db := dbAfterPut, wb := testBatch }).wb
        = iterateTrace testBatch := by
  exact ⟨rfl, rfl, fun _ => rfl, by decide, by decide⟩

/-- C10: the test's global `phase` always holds a string literal (initially
the empty string, then the latest `StartPhase` argument) and is never the
null pointer, so in the filter phase the branch guarded by `if (phase == 0)`
is not taken, `fake_filter_result` is never set to 0, and every invocation
of the custom membership test during the phase returns 1. -/
theorem spec_C10 :
    (∀ names : List String, (phaseAfter names).isSome = true)
    ∧ phaseAfter mainPhaseNames = some ("filter")
    ∧ (∀ ffr0 : Bool,
        (filterRunBody (phaseAfter mainPhaseNames) ffr0).branchTaken = false
        ∧ (filterRunBody (phaseAfter mainPhaseNames) ffr0).matchCalls
            = [some true, some true]
        ∧ (filterRunBody (phaseAfter mainPhaseNames) ffr0).finalFFR = true) := by
  have hfold : ∀ (ns : List String) (s : String),
      (ns.foldl StartPhase (some s)).isSome = true := by
    intro ns
    induction ns with
    | nil => intro s; rfl
    | cons n ns ih =>
        intro s
        simpa [List.foldl_cons, StartPhase] using ih n
  refine ⟨?_, by decide, ?_⟩
  · intro names
    exact hfold names ("")
  · intro ffr0
    exact ⟨rfl, rfl, rfl⟩

/-- Entries visible in the iter phase of the test, in key order: box maps to
c and foo maps to hello. -/
def iterEntries : List Entry := [(kBox, kC), (kFoo, kHello)]

/-- Concrete cursor trace of the iter phase (`db/c_test.c` lines 254-274):
a fresh iterator is Invalid; SeekToFirst yields box/c; Next yields
foo/hello; Prev yields box/c; Prev again is Invalid; SeekToLast yields
foo/hello; Seek("b") yields box/c. -/
def iterScenario : Bool :=
  let it0 := novelsm_create_iterator iterEntries
  let it1 := novelsm_iter_seek_to_first it0
  let it2 := novelsm_iter_next it1
  let it3 := novelsm_iter_prev it2
  let it4 := novelsm_iter_prev it3
  let it5 := novelsm_iter_seek_to_last it4
  let it6 := novelsm_iter_seek it5 kB
  (!novelsm_iter_valid it0)
  && novelsm_iter_valid it1
  && (novelsm_iter_key it1 == some kBox) && (novelsm_iter_value it1 == some kC)
  && (novelsm_iter_key it2 == some kFoo) && (novelsm_iter_value it2 == some kHello)
  && (novelsm_iter_key it3 == some kBox) && (novelsm_iter_value it3 == some kC)
  && (!novelsm_iter_valid it4)
  && (novelsm_iter_key it5 == some kFoo) && (novelsm_iter_value it5 == some kHello)
  && (novelsm_iter_key it6 == some kBox) && (novelsm_iter_value it6 == some kC)

/-- C4: the iterator follows the specified cursor state machine over the
sorted key space: freshly created it is Invalid; SeekToFirst/SeekToLast land
on the lowest/highest key or Invalid when empty; Seek lands on the first key
at or above the target or Invalid when none; keys strictly increase with
cursor position, so Next/Prev move to the order-adjacent entry and fall off
the ends to Invalid; Key/Value in a Valid state return the current entry;
and the concrete box/foo trace of the test holds. -/
theorem spec_C4 (es : List Entry) (t : ByteStr) (h : sortedB es = true) :
    novelsm_iter_valid (novelsm_create_iterator es) = false
    ∧ novelsm_iter_valid (novelsm_iter_seek_to_first (novelsm_create_iterator es))
        = !es.isEmpty
    ∧ novelsm_iter_key (novelsm_iter_seek_to_first (novelsm_create_iterator es))
        = (es[0]?).map Prod.fst
    ∧ (∀ e ∈ es, ∀ k : ByteStr,
        novelsm_iter_key (novelsm_iter_seek_to_first (novelsm_create_iterator es))
          = some k → keyLtB e.1 k = false)
    ∧ novelsm_iter_valid (novelsm_iter_seek_to_last (novelsm_create_iterator es))
        = !es.isEmpty
    ∧ novelsm_iter_key (novelsm_iter_seek_to_last (novelsm_create_iterator es))
        = (es[es.length - 1]?).map Prod.fst
    ∧ (∀ e ∈ es, ∀ k : ByteStr,
        novelsm_iter_key (novelsm_iter_seek_to_last (novelsm_create_iterator es))
          = some k → keyLtB k e.1 = false)
    ∧ novelsm_iter_key (novelsm_iter_seek (novelsm_create_iterator es) t)
        = (es.find? fun e => !keyLtB e.1 t).map Prod.fst
    ∧ novelsm_iter_valid (novelsm_iter_seek (novelsm_create_iterator es) t)
        = (es.find? fun e => !keyLtB e.1 t).isSome
    ∧ (∀ i j (hi : i < es.length) (hj : j < es.length), i < j →
        keyLtB (es.get ⟨i, hi⟩).1 (es.get ⟨j, hj⟩).1 = true)
    ∧ (∀ i : Nat, (novelsm_iter_next { entries := es, pos := some i }).pos
        = if i + 1 < es.length then some (i + 1) else none)
    ∧ (∀ i : Nat, (novelsm_iter_prev { entries := es, pos := some i }).pos
        = if i = 0 then none else some (i - 1))
    ∧ (∀ i (hi : i < es.length),
        novelsm_iter_key { entries := es, pos := some i } = some (es.get ⟨i, hi⟩).1
        ∧ novelsm_iter_value { entries := es, pos := some i } = some (es.get ⟨i, hi⟩).2)
    ∧ iterScenario = true := by
  refine ⟨rfl, ?_, ?_, ?_, ?_, ?_, ?_, ?_, ?_, sortedB_index h, fun i => rfl,
    fun i => rfl, ?_, by decide⟩
  · cases es <;> rfl
  · cases es <;> rfl
  · intro e he k hk
    cases es with
    | nil => exact absurd he (List.not_mem_nil e)
    | cons a es' =>
        have hk' : a.1 = k := by
          simpa [novelsm_iter_key, novelsm_iter_seek_to_first,
            novelsm_create_iterator] using hk
        rw [← hk']
        have h0 : 0 < (a :: es').length := by simp
        have : (a :: es').get ⟨0, h0⟩ = a := rfl
        simpa [this] using sortedB_head_min h e he h0
  · cases es <;> rfl
  · cases es <;> rfl
  · intro e he k hk
    cases es with
    | nil => exact absurd he (List.not_mem_nil e)
    | cons a es' =>
        have hl : (a :: es').length - 1 < (a :: es').length := by
          simp [List.length_cons]
        have hkey : novelsm_iter_key
            (novelsm_iter_seek_to_last (novelsm_create_iterator (a :: es')))
            = some (((a :: es').get ⟨(a :: es').length - 1, hl⟩).1) := by
          simp [novelsm_iter_key, novelsm_iter_seek_to_last, novelsm_create_iterator,
            List.getElem?_eq_getElem, hl, List.get_eq_getElem]
        rw [hkey] at hk
        rw [← Option.some.inj hk]
        exact sortedB_last_max h e he hl
  · exact seekPos_bind_fst t es
  · exact seekPos_isSome_eq t es
  · intro i hi
    constructor <;>
      simp [novelsm_iter_key, novelsm_iter_value, List.getElem?_eq_getElem, hi,
        List.get_eq_getElem]

/-- Witness for C4 at the test's key space (box maps to c, foo to hello) and
seek target "b". -/
theorem spec_C4_w :
    sortedB iterEntries = true
    ∧ (novelsm_iter_valid (novelsm_create_iterator iterEntries) = false
    ∧ novelsm_iter_valid (novelsm_iter_seek_to_first (novelsm_create_iterator iterEntries))
        = !iterEntries.isEmpty
    ∧ novelsm_iter_key (novelsm_iter_seek_to_first (novelsm_create_iterator iterEntries))
        = (iterEntries[0]?).map Prod.fst
    ∧ (∀ e ∈ iterEntries, ∀ k : ByteStr,
        novelsm_iter_key (novelsm_iter_seek_to_first (novelsm_create_iterator iterEntries))
          = some k → keyLtB e.1 k = false)
    ∧ novelsm_iter_valid (novelsm_iter_seek_to_last (novelsm_create_iterator iterEntries))
        = !iterEntries.isEmpty
    ∧ novelsm_iter_key (novelsm_iter_seek_to_last (novelsm_create_iterator iterEntries))
        = (iterEntries[iterEntries.length - 1]?).map Prod.fst
    ∧ (∀ e ∈ iterEntries, ∀ k : ByteStr,
        novelsm_iter_key (novelsm_iter_seek_to_last (novelsm_create_iterator iterEntries))
          = some k → keyLtB k e.1 = false)
    ∧ novelsm_iter_key (novelsm_iter_seek (novelsm_create_iterator iterEntries) kB)
        = (iterEntries.find? fun e => !keyLtB e.1 kB).map Prod.fst
    ∧ novelsm_iter_valid (novelsm_iter_seek (novelsm_create_iterator iterEntries) kB)
        = (iterEntries.find? fun e => !keyLtB e.1 kB).isSome
    ∧ (∀ i j (hi : i < iterEntries.length) (hj : j < iterEntries.length), i < j →
        keyLtB (iterEntries.get ⟨i, hi⟩).1 (iterEntries.get ⟨j, hj⟩).1 = true)
    ∧ (∀ i : Nat, (novelsm_iter_next { entries := iterEntries, pos := some i }).pos
        = if i + 1 < iterEntries.length then some (i + 1) else none)
    ∧ (∀ i : Nat, (novelsm_iter_prev { entries := iterEntries, pos := some i }).pos
        = if i = 0 then none else some (i - 1))
    ∧ (∀ i (hi : i < iterEntries.length),
        novelsm_iter_key { entries := iterEntries, pos := some i }
          = some (iterEntries.get ⟨i, hi⟩).1
        ∧ novelsm_iter_value { entries := iterEntries, pos := some i }
          = some (iterEntries.get ⟨i, hi⟩).2)
    ∧ iterScenario = true) :=
  ⟨by decide, spec_C4 iterEntries kB (by decide)⟩

end NoveLSM
